import Mathlib

/-!
Shallow embedding of the analytics-aggregation and semantic-retrieval core of
the CheckMate Chrome extension (src/utils/firebase.js, src/utils/embeddings.js,
src/utils/chatbot.js, src/utils/googleClassroom.js,
src/components/GradesTab.jsx), together with proofs about it.

Modelling conventions:
* JavaScript numbers are idealized as exact rationals extended with the IEEE
  special values `+Infinity`, `-Infinity` and `NaN` (`JsNum` below); rounding
  of binary floating point is abstracted away (the specification's "within
  floating-point tolerance" reading), while the special-value propagation of
  JS arithmetic (division by zero, `NaN`, infinities) is kept.  The embedding
  ignores the IEEE signed zero: `0` stands for both `+0` and `-0`.
* JavaScript strings are modelled as lists of characters (`Str`).
* Firestore documents are modelled as Lean structures; object maps become
  functions with a default (`0` for counters, `none` for absent entries),
  matching JS `obj[k] || 0` / `obj[k] || default` access.  The `lastUpdated` /
  `deletedAt` timestamp fields (wall-clock `Date.now()`) are omitted, being
  environment input with no computational role.
* The vector mathematics of `embeddings.js` is modelled over the real numbers
  (`Math.sqrt` becomes `Real.sqrt`).  The ranking/filtering pipeline, which is
  purely order-based, is stated generically over a linear-ordered field so
  that it can also be evaluated on rational scores.
-/

namespace CheckMate

/-- Model of a JavaScript number: an exact finite value (idealized as a
rational), one of the two infinities, or `NaN`. -/
inductive JsNum where
  | fin (q : ℚ)
  | posInf
  | negInf
  | nan
deriving DecidableEq, Repr

namespace JsNum

/-- JS addition (`a + b`) on numbers: `NaN` propagates, opposite infinities
give `NaN`, an infinity absorbs finite summands. -/
def add : JsNum → JsNum → JsNum
  | fin a, fin b => fin (a + b)
  | nan, _ => nan
  | _, nan => nan
  | posInf, negInf => nan
  | negInf, posInf => nan
  | posInf, _ => posInf
  | _, posInf => posInf
  | negInf, _ => negInf
  | _, negInf => negInf

/-- JS multiplication (`a * b`) on numbers: `NaN` propagates, an infinity
times zero is `NaN`, otherwise infinities multiply by sign. -/
def mul : JsNum → JsNum → JsNum
  | fin a, fin b => fin (a * b)
  | nan, _ => nan
  | _, nan => nan
  | posInf, posInf => posInf
  | posInf, negInf => negInf
  | negInf, posInf => negInf
  | negInf, negInf => posInf
  | posInf, fin b => if b = 0 then nan else if 0 < b then posInf else negInf
  | fin a, posInf => if a = 0 then nan else if 0 < a then posInf else negInf
  | negInf, fin b => if b = 0 then nan else if 0 < b then negInf else posInf
  | fin a, negInf => if a = 0 then nan else if 0 < a then negInf else posInf

/-- JS division (`a / b`) on numbers: `0/0` is `NaN`, a nonzero finite value
divided by zero is a signed infinity, a finite value divided by an infinity
is `0`, an infinity divided by an infinity is `NaN`. -/
def div : JsNum → JsNum → JsNum
  | fin a, fin b =>
      if b = 0 then (if a = 0 then nan else if 0 < a then posInf else negInf)
      else fin (a / b)
  | nan, _ => nan
  | _, nan => nan
  | posInf, posInf => nan
  | posInf, negInf => nan
  | negInf, posInf => nan
  | negInf, negInf => nan
  | posInf, fin b => if 0 ≤ b then posInf else negInf
  | negInf, fin b => if 0 ≤ b then negInf else posInf
  | fin _, posInf => fin 0
  | fin _, negInf => fin 0

/-- JS `x || 0` applied to a number: `NaN` (falsy) is replaced by `0`;
a falsy `0` is replaced by the equal literal `0`; everything else is kept.
This models the `data.averageGrade || 0` style reads in `firebase.js`. -/
def orZero : JsNum → JsNum
  | nan => fin 0
  | fin q => fin q
  | posInf => posInf
  | negInf => negInf

/-- Whether a `JsNum` is a finite number (JS `Number.isFinite`). -/
def isFinite : JsNum → Bool
  | fin _ => true
  | _ => false

end JsNum

/-- A JavaScript string, modelled as its list of characters. -/
abbrev Str := List Char

/-- Model of `String.prototype.toLowerCase` at a single character, restricted
to the Basic Latin alphabet: `A`–`Z` map to `a`–`z` and every other character
is unchanged.  (Full JS lowercasing also maps non-ASCII letters; the topic
strings handled by the extension are ASCII.) -/
def lowerChar (c : Char) : Char :=
  if 65 ≤ c.toNat ∧ c.toNat ≤ 90 then Char.ofNat (c.toNat + 32) else c

/-- Model of `String.prototype.toLowerCase` on a string. -/
def lowerStr (s : Str) : Str := s.map lowerChar

/-- The whitespace test used to model `String.prototype.trim`, restricted to
the ASCII whitespace characters. -/
def wsChar (c : Char) : Bool := c == ' ' || c == '\t' || c == '\n' || c == '\r'

/-- Model of `String.prototype.trim`: drop whitespace from the front, then
from the back. -/
def trimStr (s : Str) : Str :=
  ((s.dropWhile wsChar).reverse.dropWhile wsChar).reverse

/-- The struggling-topic key normalization used by `updateClassAnalytics`,
`updateStudentAnalytics`, `recalculateClassAnalytics` and
`recalculateStudentAnalytics` in `firebase.js`:
`topic.toLowerCase().trim()`. -/
def normalizeTopic (s : Str) : Str := trimStr (lowerStr s)

/-- JS truthiness of an optional string (`undefined`/`null` and the empty
string are falsy). -/
def truthyStr : Option Str → Bool
  | none => false
  | some s => !s.isEmpty

/-- Per-student entry of `classAnalytics.studentPerformances` (firebase.js). -/
structure StudentPerf where
  name : Str
  averageScore : JsNum
  totalAssignments : ℕ
deriving Repr

/-- The `classAnalytics/{classId}` document maintained by
`updateClassAnalytics` / `recalculateClassAnalytics` (firebase.js).  Object
maps are modelled as total functions with defaults (`0` occurrence count,
`none` for an absent student entry).  `lastUpdated` is omitted (wall-clock
time). -/
structure ClassAnalytics where
  averageGrade : JsNum
  totalAssignments : ℕ
  commonStrugglingTopics : Str → ℕ
  studentPerformances : Str → Option StudentPerf

/-- The payload of one `updateClassAnalytics(classId, gradeData, studentId,
studentName)` call. -/
structure GradeInsert where
  overallScore : ℚ
  totalPoints : ℚ
  strugglingTopics : List Str
  studentId : Option Str
  studentName : Option Str
deriving DecidableEq, Repr

/-- The percentage computed by `updateClassAnalytics`:
`(gradeData.overallScore / gradeData.totalPoints) * 100`, in JS arithmetic
(no guard against `totalPoints = 0`). -/
def jsPercentage (g : GradeInsert) : JsNum :=
  ((JsNum.fin g.overallScore).div (JsNum.fin g.totalPoints)).mul (JsNum.fin 100)

/-- The exact percentage `score/totalPoints*100` of a grade whose
`totalPoints` is nonzero. -/
def pct (g : GradeInsert) : ℚ := g.overallScore / g.totalPoints * 100

/-- Folding one topic occurrence into a topic-count map:
`topics[normalizedTopic] = (topics[normalizedTopic] || 0) + 1`. -/
def bumpTopic (m : Str → ℕ) (topic : Str) : Str → ℕ :=
  fun k => if k = normalizeTopic topic then m (normalizeTopic topic) + 1 else m k

/-- Folding a grade's topic list into a topic-count map (the
`gradeData.strugglingTopics.forEach` loop of the existing-aggregate branch). -/
def bumpTopics (m : Str → ℕ) (topics : List Str) : Str → ℕ :=
  topics.foldl bumpTopic m

/-- The topic map created by the no-aggregate branch of
`updateClassAnalytics`: starting from `{}`, each topic's normalized key is
set to `1` (an assignment, not an increment). -/
def initTopics (topics : List Str) : Str → ℕ :=
  topics.foldl (fun m t => fun k => if k = normalizeTopic t then 1 else m k)
    (fun _ => 0)

/-- One step of `updateClassAnalytics` (firebase.js lines 293–374): the body
of the per-class transaction, applied to the current aggregate (`none` when
the document does not exist) and one grade.  Mirrors both branches of the
source, including the `|| 0` fallbacks and the JS-truthiness tests. -/
def insertGradeStep (state : Option ClassAnalytics) (g : GradeInsert) :
    ClassAnalytics :=
  let currentPercentage := jsPercentage g
  match state with
  | none =>
      let topics :=
        if g.strugglingTopics.isEmpty then (fun _ => 0)
        else initTopics g.strugglingTopics
      let perfs : Str → Option StudentPerf :=
        if truthyStr g.studentId && truthyStr g.studentName then
          fun k =>
            if k = g.studentId.getD [] then
              some ⟨g.studentName.getD [], currentPercentage, 1⟩
            else none
        else fun _ => none
      ⟨currentPercentage, 1, topics, perfs⟩
  | some data =>
      let oldTotal := data.totalAssignments
      let oldAvg := data.averageGrade.orZero
      let newTotal := oldTotal + 1
      let newAvg :=
        ((oldAvg.mul (JsNum.fin oldTotal)).add currentPercentage).div
          (JsNum.fin newTotal)
      let topics :=
        if g.strugglingTopics.isEmpty then data.commonStrugglingTopics
        else bumpTopics data.commonStrugglingTopics g.strugglingTopics
      let perfs :=
        if truthyStr g.studentId && truthyStr g.studentName then
          let sid := g.studentId.getD []
          let prev := (data.studentPerformances sid).getD
            ⟨g.studentName.getD [], JsNum.fin 0, 0⟩
          let sNewTotal := prev.totalAssignments + 1
          let sNewAvg :=
            ((prev.averageScore.orZero.mul
              (JsNum.fin prev.totalAssignments)).add currentPercentage).div
              (JsNum.fin sNewTotal)
          fun k =>
            if k = sid then some ⟨g.studentName.getD [], sNewAvg, sNewTotal⟩
            else data.studentPerformances k
        else data.studentPerformances
      ⟨newAvg, newTotal, topics, perfs⟩

/-- A sequence of `updateClassAnalytics` calls applied to a class with no
pre-existing aggregate. -/
def insertGrades (gs : List GradeInsert) : Option ClassAnalytics :=
  gs.foldl (fun st g => some (insertGradeStep st g)) none

/-- A document of the `grades` collection, as read by
`getActiveGradesForClass` (firebase.js).  `deletedAt` is omitted (wall-clock
time); a missing `deleted` field reads as `false`. -/
structure GradeRecord where
  id : Str
  classId : Str
  teacherId : Str
  studentId : Option Str
  studentName : Option Str
  assignmentId : Str
  assignmentName : Str
  overallScore : ℚ
  totalPoints : ℚ
  gradedAt : ℚ
  strugglingTopics : List Str
  deleted : Bool
deriving DecidableEq, Repr

/-- The percentage `(grade.overallScore / grade.totalPoints) * 100` computed
by the recalculation loops, in JS arithmetic. -/
def jsPercentageRec (g : GradeRecord) : JsNum :=
  ((JsNum.fin g.overallScore).div (JsNum.fin g.totalPoints)).mul (JsNum.fin 100)

/-- The exact percentage of a grade record whose `totalPoints` is nonzero. -/
def pctRec (g : GradeRecord) : ℚ := g.overallScore / g.totalPoints * 100

/-- Model of `deleteGrade` (firebase.js lines 507–510): soft-deletes a grade by
setting its `deleted` flag; nothing is removed from the collection. -/
def deleteGrade (gradeId : Str) (gs : List GradeRecord) : List GradeRecord :=
  gs.map (fun g =>
    if g.id = gradeId then
      ⟨g.id, g.classId, g.teacherId, g.studentId, g.studentName,
        g.assignmentId, g.assignmentName, g.overallScore, g.totalPoints,
        g.gradedAt, g.strugglingTopics, true⟩
    else g)

/-- Model of `getActiveGradesForClass` (firebase.js lines 518–535): the Firestore
query selects the grades of the class and teacher, and the snapshot loop
keeps those whose `deleted` flag is not set. -/
def getActiveGradesForClass (classId teacherId : Str)
    (allGrades : List GradeRecord) : List GradeRecord :=
  (allGrades.filter (fun g => g.classId == classId && g.teacherId == teacherId)).filter
    (fun g => !g.deleted)

/-- The reset aggregate written by `recalculateClassAnalytics` when no active
grade remains. -/
def resetClassAnalytics : ClassAnalytics :=
  ⟨JsNum.fin 0, 0, fun _ => 0, fun _ => none⟩

/-- Intermediate per-student accumulator of `recalculateClassAnalytics`
(`{name, totalScore, totalAssignments}`). -/
structure PerfAcc where
  name : Str
  totalScore : JsNum
  totalAssignments : ℕ
deriving Repr

/-- The struggling-topic rebuild of `recalculateClassAnalytics`: fold every
active grade's topic list into a fresh map (the source guards the fold with
`grade.strugglingTopics?.length`, which is the identity fold for an empty
list). -/
def recalcTopics (grades : List GradeRecord) : Str → ℕ :=
  grades.foldl
    (fun m g =>
      if g.strugglingTopics.isEmpty then m else bumpTopics m g.strugglingTopics)
    (fun _ => 0)

/-- One grade's contribution to the first student-performance pass of
`recalculateClassAnalytics`: for a grade with truthy `studentId` and
`studentName`, initialize the student's accumulator if absent, then add the
grade's percentage and count it. -/
def perfAccStep (m : Str → Option PerfAcc) (g : GradeRecord) :
    Str → Option PerfAcc :=
  if truthyStr g.studentId && truthyStr g.studentName then
    let sid := g.studentId.getD []
    let prev := (m sid).getD ⟨g.studentName.getD [], JsNum.fin 0, 0⟩
    fun k =>
      if k = sid then
        some ⟨prev.name, prev.totalScore.add (jsPercentageRec g),
          prev.totalAssignments + 1⟩
      else m k
  else m

/-- The first student-performance pass of `recalculateClassAnalytics`:
accumulate per-student percentage totals and assignment counts for grades
with truthy `studentId` and `studentName`. -/
def recalcPerfAccs (grades : List GradeRecord) : Str → Option PerfAcc :=
  grades.foldl perfAccStep (fun _ => none)

/-- The grades of the list that contribute to the `studentPerformances`
entry keyed `sid` (truthy `studentId` and `studentName`, with `studentId`
equal to `sid`). -/
def studentGradesOf (sid : Str) (gs : List GradeRecord) : List GradeRecord :=
  gs.filter
    (fun g =>
      (truthyStr g.studentId && truthyStr g.studentName) &&
        g.studentId.getD [] == sid)

/-- The second student-performance pass of `recalculateClassAnalytics`:
replace each accumulator by `{name, averageScore, totalAssignments}`. -/
def recalcPerfs (grades : List GradeRecord) : Str → Option StudentPerf :=
  fun k =>
    (recalcPerfAccs grades k).map
      (fun p =>
        ⟨p.name, p.totalScore.div (JsNum.fin p.totalAssignments),
          p.totalAssignments⟩)

/-- The percentage total of the recalculation main loop
(`totalPercentage += percentage`). -/
def recalcTotalPercentage (grades : List GradeRecord) : JsNum :=
  grades.foldl (fun acc g => acc.add (jsPercentageRec g)) (JsNum.fin 0)

/-- Model of `recalculateClassAnalytics` (firebase.js lines 542–606): rebuild the
class aggregate from the currently active grades, or reset it when none
remain.  The single source loop updates three independent accumulators
(`totalPercentage`, `commonStrugglingTopics`, `studentPerformances`), which
is rendered here as three folds over the same grade list. -/
def recalculateClassAnalytics (classId teacherId : Str)
    (allGrades : List GradeRecord) : ClassAnalytics :=
  let grades := getActiveGradesForClass classId teacherId allGrades
  if grades.length = 0 then resetClassAnalytics
  else
    ⟨(recalcTotalPercentage grades).div (JsNum.fin grades.length),
      grades.length, recalcTopics grades, recalcPerfs grades⟩

/-- Per-topic entry of `studentAnalytics.strugglingTopics`
(`{count, assignments}`). -/
structure TopicEntry where
  count : ℕ
  assignments : List Str
deriving DecidableEq, Repr

/-- One entry of `studentAnalytics.assignmentHistory`. -/
structure HistoryEntry where
  assignmentId : Str
  assignmentName : Str
  score : ℚ
  totalPoints : ℚ
  gradedAt : ℚ
  strugglingTopics : List Str
deriving DecidableEq, Repr

/-- The `studentAnalytics/{studentId}/classes/{classId}` document
(firebase.js).  `lastUpdated` is omitted (wall-clock time). -/
structure StudentAnalytics where
  averageScore : JsNum
  totalAssignments : ℕ
  strugglingTopics : Str → Option TopicEntry
  assignmentHistory : List HistoryEntry

/-- The reset aggregate written by `recalculateStudentAnalytics` when the
student has no active grade left. -/
def resetStudentAnalytics : StudentAnalytics :=
  ⟨JsNum.fin 0, 0, fun _ => none, []⟩

/-- The struggling-topic rebuild of `recalculateStudentAnalytics`: per topic
occurrence, increment the count and record the assignment id if new. -/
def recalcStudentTopics (grades : List GradeRecord) : Str → Option TopicEntry :=
  grades.foldl
    (fun m g =>
      if g.strugglingTopics.isEmpty then m
      else
        g.strugglingTopics.foldl
          (fun m t =>
            let key := normalizeTopic t
            let prev := (m key).getD ⟨0, []⟩
            fun k =>
              if k = key then
                some ⟨prev.count + 1,
                  if g.assignmentId ∈ prev.assignments then prev.assignments
                  else prev.assignments ++ [g.assignmentId]⟩
              else m k)
          m)
    (fun _ => none)

/-- The history entry built for a grade by `recalculateStudentAnalytics`. -/
def historyEntryOf (g : GradeRecord) : HistoryEntry :=
  ⟨g.assignmentId, g.assignmentName, g.overallScore, g.totalPoints,
    g.gradedAt, g.strugglingTopics⟩

/-- Model of `recalculateStudentAnalytics` (firebase.js lines 614–675): rebuild the
per-student, per-class aggregate from the student's active grades, or reset
it when none remain.  The history is sorted ascending by `gradedAt`
(`sort((a, b) => a.gradedAt - b.gradedAt)`), modelled with a stable insertion
sort. -/
def recalculateStudentAnalytics (studentId classId teacherId : Str)
    (allGrades : List GradeRecord) : StudentAnalytics :=
  let studentGrades :=
    (getActiveGradesForClass classId teacherId allGrades).filter
      (fun g => g.studentId == some studentId)
  if studentGrades.length = 0 then resetStudentAnalytics
  else
    ⟨(studentGrades.foldl (fun acc g => acc.add (jsPercentageRec g))
        (JsNum.fin 0)).div (JsNum.fin studentGrades.length),
      studentGrades.length,
      recalcStudentTopics studentGrades,
      List.insertionSort (fun a b => a.gradedAt ≤ b.gradedAt)
        (studentGrades.map historyEntryOf)⟩

/-- Model of `calculatePercentage` (GradesTab.jsx lines 37–41, and the closure at
lines 884–890): the display-side percentage helper.  A zero (or missing, or
`NaN`) total yields `0`; otherwise the percentage is rounded with
`Math.round` (half away from negative infinity, i.e. `⌊x + 1/2⌋`).  With
rational inputs and a nonzero total the `isNaN(percentage)` re-check of the
source cannot fire. -/
def calculatePercentage (score total : ℚ) : ℚ :=
  if total = 0 then 0 else ((⌊score / total * 100 + 1 / 2⌋ : ℤ) : ℚ)

/-- The accumulator loop of `cosineSimilarity` (embeddings.js lines 64–72):
all three sums run over the indices of `vecA` (past the length guard the two
vectors have the same length, so out-of-range reads cannot occur; `getD _ 0`
is unreachable padding). -/
noncomputable def dotProduct (vecA vecB : List ℝ) : ℝ :=
  ∑ i ∈ Finset.range vecA.length, vecA.getD i 0 * vecB.getD i 0

/-- Model of `cosineSimilarity` past its argument guard (embeddings.js lines 64–81):
`dot / (√normA * √normB)`, with a zero denominator guarded to `0`. -/
noncomputable def cosineSimilarityCore (vecA vecB : List ℝ) : ℝ :=
  let dp := dotProduct vecA vecB
  let normA := dotProduct vecA vecA
  let normB := dotProduct vecB vecB
  let denominator := Real.sqrt normA * Real.sqrt normB
  if denominator = 0 then 0 else dp / denominator

/-- The error message thrown by `cosineSimilarity` on a null argument or a
length mismatch. -/
def vectorErrMsg : Str := "Vectors must be non-null and have equal length".data

/-- Model of `cosineSimilarity` (embeddings.js lines 59–81) including its argument
guard: a `null`/`undefined` vector is `none`; a thrown `Error` is modelled
as `Except.error`. -/
noncomputable def cosineSimilarity (vecA vecB : Option (List ℝ)) :
    Except Str ℝ :=
  match vecA, vecB with
  | some a, some b =>
      if a.length = b.length then Except.ok (cosineSimilarityCore a b)
      else Except.error vectorErrMsg
  | _, _ => Except.error vectorErrMsg

/-- A scored document as produced by the `map` of `searchSimilar`
(embeddings.js lines 96–106), keeping the fields the context assembly reads.
The score type is a parameter so that the purely order-based ranking pipeline
can be evaluated on rational scores; the extension instantiates it with the
real-valued cosine similarity. -/
structure ScoredDoc (α : Type) where
  content : Str
  className : Option Str
  score : α
deriving DecidableEq, Repr

/-- The descending-score ordering of `sort((a, b) => b.score - a.score)`. -/
def scoreDescRel {α : Type} [LinearOrder α] (a b : ScoredDoc α) : Prop :=
  b.score ≤ a.score

instance {α : Type} [LinearOrder α] : DecidableRel (scoreDescRel (α := α)) :=
  fun a b => inferInstanceAs (Decidable (b.score ≤ a.score))

instance {α : Type} [LinearOrder α] : IsTotal (ScoredDoc α) scoreDescRel :=
  ⟨fun a b => le_total b.score a.score⟩

instance {α : Type} [LinearOrder α] : IsTrans (ScoredDoc α) scoreDescRel :=
  ⟨fun _ _ _ h₁ h₂ => le_trans h₂ h₁⟩

/-- Model of `scoredDocs.sort((a, b) => b.score - a.score)`: a stable
comparison-based sort by descending score. -/
def sortByScoreDesc {α : Type} [LinearOrder α] (l : List (ScoredDoc α)) :
    List (ScoredDoc α) :=
  List.insertionSort scoreDescRel l

/-- The ranking tail of `searchSimilar` (embeddings.js lines 109–111): sort
descending by score, keep the top `topK`. -/
def rankTop {α : Type} [LinearOrder α] (topK : ℕ) (scored : List (ScoredDoc α)) :
    List (ScoredDoc α) :=
  (sortByScoreDesc scored).take topK

/-- The relevance filter of the context assembly
(`retrievedDocs.filter(doc => doc.score > 0.3)`, chatbot.js line 187 and
googleClassroom.js line 377).  The source literal `0.3` is the rational
`3/10` under the exact-arithmetic reading. -/
def relevantDocs {α : Type} [LinearOrderedField α]
    (retrieved : List (ScoredDoc α)) : List (ScoredDoc α) :=
  retrieved.filter (fun d => 3 / 10 < d.score)

/-- A semantic document of the tenant's RAG collection, with the fields
`searchSimilar` and the context assembly read. -/
structure RagDocument where
  content : Str
  className : Option Str
  embedding : Option (List ℝ)

/-- The scoring head of `searchSimilar` (embeddings.js lines 96–106): keep
the documents that carry an embedding array, score each against the query
embedding by cosine similarity. -/
noncomputable def scoreDocuments (queryEmbedding : List ℝ)
    (documents : List RagDocument) : List (ScoredDoc ℝ) :=
  (documents.filter (fun d => d.embedding.isSome)).map
    (fun d =>
      ⟨d.content, d.className,
        cosineSimilarityCore queryEmbedding (d.embedding.getD [])⟩)

/-- Model of `searchSimilar(queryEmbedding, documents, topK)` (embeddings.js lines
90–112): score, sort descending, take the top `topK`. -/
noncomputable def searchSimilar (queryEmbedding : List ℝ)
    (documents : List RagDocument) (topK : ℕ) : List (ScoredDoc ℝ) :=
  rankTop topK (scoreDocuments queryEmbedding documents)

/-- The fallback context used when the tenant has no documents (chatbot.js
line 167). -/
def noDataFallback : Str :=
  "No student data available yet. Answer based on general teaching knowledge.".data

/-- The fallback context used when every retrieved document is filtered out
by the relevance threshold (chatbot.js line 199). -/
def noRelevantFallback : Str :=
  "No highly relevant student data found for this query. Answer based on general teaching knowledge.".data

/-- One rendered context line
(`[${idx + 1}] ${doc.content}`, prefixed with `(${meta.className})` when the
class name is truthy; chatbot.js lines 188–195). -/
def docLine {α : Type} (idx : ℕ) (d : ScoredDoc α) : Str :=
  if truthyStr d.className then
    ("[" ++ Nat.repr (idx + 1) ++ "] (").data ++ d.className.getD []
      ++ ") ".data ++ d.content
  else ("[" ++ Nat.repr (idx + 1) ++ "] ").data ++ d.content

/-- The context string built from the retrieved documents (chatbot.js lines
185–201): when retrieval returned documents, render the relevance-filtered
survivors joined by blank lines, falling back to `noRelevantFallback` when
the result trims to nothing; when retrieval returned nothing, the initial
`noDataFallback` is kept. -/
def contextFromRetrieved {α : Type} [LinearOrderedField α]
    (retrieved : List (ScoredDoc α)) : Str :=
  if retrieved.length > 0 then
    let s :=
      List.intercalate "\n\n".data ((relevantDocs retrieved).mapIdx docLine)
    if trimStr s = [] then noRelevantFallback else s
  else noDataFallback

/-- The retrieval-and-assembly path of `sendChatMessageWithRAG` (chatbot.js
lines 166–202) for a signed-in teacher: with no documents the initial
fallback is kept, otherwise the top-10 similar documents are retrieved and
rendered. -/
noncomputable def assembleContext (queryEmbedding : List ℝ)
    (allDocuments : List RagDocument) : Str :=
  if allDocuments.length > 0 then
    contextFromRetrieved (searchSimilar queryEmbedding allDocuments 10)
  else noDataFallback

/-- State of the `createBatchedChunkHandler` closure (chatbot.js lines
18–42): the pending `batchedText`, plus the log of strings passed to the
caller's callback so far.  The `timeoutId` bookkeeping only decides when the
timer fires, which is modelled by letting timer events occur at arbitrary
points of the stream. -/
structure BatchState where
  batchedText : Str
  delivered : List Str
deriving DecidableEq, Repr

/-- The initial state of a fresh handler. -/
def emptyBatch : BatchState := ⟨[], []⟩

/-- Model of `flush` (chatbot.js lines 22–31): deliver the pending text to the
callback if nonempty. -/
def flushBatch (s : BatchState) : BatchState :=
  if s.batchedText.isEmpty then s else ⟨[], s.delivered ++ [s.batchedText]⟩

/-- Model of `updateChunk` (chatbot.js lines 33–39): append the chunk to the pending
text (and re-arm the timer). -/
def updateChunk (s : BatchState) (chunk : Str) : BatchState :=
  ⟨s.batchedText ++ chunk, s.delivered⟩

/-- An event seen by the handler: a streamed text chunk, or the batching
timer firing. -/
inductive StreamEvent where
  | chunk (text : Str)
  | timerFire
deriving DecidableEq, Repr

/-- One event step of the handler. -/
def stepEvent (s : BatchState) : StreamEvent → BatchState
  | StreamEvent.chunk t => updateChunk s t
  | StreamEvent.timerFire => flushBatch s

/-- Run the handler over a whole event stream from the initial state. -/
def runEvents (events : List StreamEvent) : BatchState :=
  events.foldl stepEvent emptyBatch

/-- The text chunks contained in an event stream, in order: these are the
`textPart`s the streaming loop of `sendChatMessageWithRAG` feeds to both
`fullText` and `updateChunk` (chatbot.js lines 267–272). -/
def chunksOf (events : List StreamEvent) : List Str :=
  events.filterMap (fun e =>
    match e with
    | StreamEvent.chunk t => some t
    | StreamEvent.timerFire => none)

/-- The non-streamed full response accumulated by `fullText += textPart`. -/
def fullResponse (chunks : List Str) : Str :=
  chunks.foldl (fun acc t => acc ++ t) []

/-! ## Basic lemmas about the JS number model -/

theorem JsNum.add_fin (a b : ℚ) :
    (JsNum.fin a).add (JsNum.fin b) = JsNum.fin (a + b) := rfl

theorem JsNum.mul_fin (a b : ℚ) :
    (JsNum.fin a).mul (JsNum.fin b) = JsNum.fin (a * b) := rfl

theorem JsNum.div_fin {b : ℚ} (a : ℚ) (hb : b ≠ 0) :
    (JsNum.fin a).div (JsNum.fin b) = JsNum.fin (a / b) := by
  simp [JsNum.div, hb]

theorem JsNum.orZero_fin (a : ℚ) : (JsNum.fin a).orZero = JsNum.fin a := rfl

theorem jsPercentage_eq_pct {g : GradeInsert} (h : g.totalPoints ≠ 0) :
    jsPercentage g = JsNum.fin (pct g) := by
  rw [jsPercentage, JsNum.div_fin _ h, JsNum.mul_fin, pct]

theorem jsPercentageRec_eq_pctRec {g : GradeRecord} (h : g.totalPoints ≠ 0) :
    jsPercentageRec g = JsNum.fin (pctRec g) := by
  rw [jsPercentageRec, JsNum.div_fin _ h, JsNum.mul_fin, pctRec]

/-! ## Character and string normalization lemmas -/

theorem charToNat_ofNat {n : ℕ} (h : n < 55296) : (Char.ofNat n).toNat = n := by
  rw [Char.ofNat, dif_pos (Or.inl h)]
  simp [Char.ofNatAux, Char.toNat, UInt32.ofNat', UInt32.toNat]

theorem lowerChar_toNat_of_upper {c : Char}
    (h : 65 ≤ c.toNat ∧ c.toNat ≤ 90) :
    (lowerChar c).toNat = c.toNat + 32 := by
  rw [lowerChar, if_pos h, charToNat_ofNat (by omega)]

theorem lowerChar_of_not_upper {c : Char}
    (h : ¬(65 ≤ c.toNat ∧ c.toNat ≤ 90)) : lowerChar c = c := by
  rw [lowerChar, if_neg h]

theorem lowerChar_idem (c : Char) : lowerChar (lowerChar c) = lowerChar c := by
  by_cases h : 65 ≤ c.toNat ∧ c.toNat ≤ 90
  · have h2 := lowerChar_toNat_of_upper h
    exact lowerChar_of_not_upper (by rw [h2]; omega)
  · rw [lowerChar_of_not_upper h, lowerChar_of_not_upper h]

theorem char_eq_iff_toNat {c d : Char} : c = d ↔ c.toNat = d.toNat := by
  constructor
  · rintro rfl; rfl
  · intro h
    apply Char.ext
    rcases c with ⟨⟨⟨a, ha⟩⟩, hc⟩
    rcases d with ⟨⟨⟨b, hb⟩⟩, hd⟩
    simp only [Char.toNat, UInt32.toNat, BitVec.toNat] at h
    subst h
    rfl

theorem beq_char_toNat (c d : Char) : (c == d) = (c.toNat == d.toNat) := by
  by_cases h : c = d
  · subst h; simp
  · have hn : c.toNat ≠ d.toNat := fun hh => h (char_eq_iff_toNat.mpr hh)
    simp [h, hn]

theorem wsChar_eq_toNat (c : Char) :
    wsChar c =
      (c.toNat == 32 || c.toNat == 9 || c.toNat == 10 || c.toNat == 13) := by
  rw [wsChar, beq_char_toNat, beq_char_toNat, beq_char_toNat, beq_char_toNat]
  rfl

theorem wsChar_lowerChar (c : Char) : wsChar (lowerChar c) = wsChar c := by
  by_cases h : 65 ≤ c.toNat ∧ c.toNat ≤ 90
  · have h2 := lowerChar_toNat_of_upper h
    rw [wsChar_eq_toNat, wsChar_eq_toNat, h2]
    have hfalse : ∀ m : ℕ, 65 ≤ m →
        (m == 32 || m == 9 || m == 10 || m == 13) = false := by
      intro m hm
      simp only [Bool.or_eq_false_iff, beq_eq_false_iff_ne]
      omega
    rw [hfalse _ (by omega), hfalse _ (by omega)]
  · rw [lowerChar_of_not_upper h]

theorem lowerStr_idem (s : Str) : lowerStr (lowerStr s) = lowerStr s := by
  simp only [lowerStr, List.map_map]
  exact List.map_congr_left (fun c _ => lowerChar_idem c)

theorem dropWhile_idem (p : α → Bool) (l : List α) :
    (l.dropWhile p).dropWhile p = l.dropWhile p := by
  cases h : l.dropWhile p with
  | nil => simp
  | cons x xs =>
    have hx := List.head?_dropWhile_not p l
    rw [h] at hx
    simp only [List.head?_cons] at hx
    simp [List.dropWhile_cons, hx]

theorem dropWhile_lowerStr (s : Str) :
    (lowerStr s).dropWhile wsChar = lowerStr (s.dropWhile wsChar) := by
  rw [lowerStr, List.dropWhile_map]
  have hp : (wsChar ∘ lowerChar) = wsChar := funext (fun c => wsChar_lowerChar c)
  rw [hp, lowerStr]

theorem lowerStr_reverse (s : Str) :
    lowerStr s.reverse = (lowerStr s).reverse := by
  simp [lowerStr, List.map_reverse]

theorem trimStr_lowerStr (s : Str) :
    trimStr (lowerStr s) = lowerStr (trimStr s) := by
  rw [trimStr, trimStr, dropWhile_lowerStr, ← lowerStr_reverse, dropWhile_lowerStr,
    ← lowerStr_reverse]

theorem dropWhile_trimStr (s : Str) :
    (trimStr s).dropWhile wsChar = trimStr s := by
  rw [trimStr]
  cases hu : s.dropWhile wsChar with
  | nil => simp
  | cons x xs =>
    have hx := List.head?_dropWhile_not wsChar s
    rw [hu] at hx
    simp only [List.head?_cons] at hx
    rw [List.reverse_cons, List.dropWhile_append]
    by_cases he : ((xs.reverse.dropWhile wsChar).isEmpty) = true
    · rw [if_pos he]
      simp [List.dropWhile_cons, hx]
    · rw [if_neg he]
      rw [List.reverse_append]
      simp only [List.reverse_cons, List.reverse_nil, List.nil_append,
        List.singleton_append]
      simp [List.dropWhile_cons, hx]

theorem trimStr_idem (s : Str) : trimStr (trimStr s) = trimStr s := by
  conv_lhs => rw [trimStr, dropWhile_trimStr]
  rw [trimStr, List.reverse_reverse, dropWhile_idem]

/-! ## Topic-counter lemmas -/

theorem bumpTopics_nil (m : Str → ℕ) : bumpTopics m [] = m := rfl

theorem bumpTopics_cons (m : Str → ℕ) (u : Str) (ts : List Str) :
    bumpTopics m (u :: ts) = bumpTopics (bumpTopic m u) ts := rfl

theorem bumpTopics_not_mem :
    ∀ (ts : List Str) (m : Str → ℕ) (k : Str),
      (∀ t ∈ ts, normalizeTopic t ≠ k) → bumpTopics m ts k = m k := by
  intro ts
  induction ts with
  | nil => intro m k _; rfl
  | cons u ts ih =>
    intro m k h
    rw [bumpTopics_cons, ih _ _ (fun t ht => h t (List.mem_cons_of_mem _ ht))]
    rw [bumpTopic, if_neg (Ne.symm (h u (List.mem_cons_self u ts)))]

theorem bumpTopics_count (ts : List Str) :
    ∀ (m : Str → ℕ) (t : Str), (ts.map normalizeTopic).Nodup → t ∈ ts →
      bumpTopics m ts (normalizeTopic t) = m (normalizeTopic t) + 1 := by
  induction ts with
  | nil => intro m t _ ht; exact absurd ht (List.not_mem_nil t)
  | cons u ts ih =>
    intro m t hnd ht
    rw [List.map_cons, List.nodup_cons] at hnd
    rcases List.mem_cons.mp ht with rfl | hmem
    · rw [bumpTopics_cons,
        bumpTopics_not_mem ts _ _
          (fun q hq hg =>
            hnd.1 (by rw [← hg]; exact List.mem_map_of_mem normalizeTopic hq))]
      rw [bumpTopic, if_pos rfl]
    · have hne : normalizeTopic t ≠ normalizeTopic u := by
        intro hg
        exact hnd.1 (by rw [← hg]; exact List.mem_map_of_mem normalizeTopic hmem)
      rw [bumpTopics_cons, ih _ _ hnd.2 hmem, bumpTopic, if_neg hne]

/-! ## Claim C6 -/

/-- C6: struggling-topic normalization (`topic.toLowerCase().trim()`) is
idempotent; `"Fractions"` and `"fractions "` normalize to the same map key;
and a grade whose topics have pairwise-distinct normalized keys increments
each of its topics' counters by exactly one. -/
theorem claim_C6_topic_normalization :
    (∀ s : Str, normalizeTopic (normalizeTopic s) = normalizeTopic s) ∧
    normalizeTopic "Fractions".data = normalizeTopic "fractions ".data ∧
    (∀ (m : Str → ℕ) (ts : List Str) (t : Str),
      (ts.map normalizeTopic).Nodup → t ∈ ts →
      bumpTopics m ts (normalizeTopic t) = m (normalizeTopic t) + 1) := by
  refine ⟨?_, by decide, fun m ts t hnd ht => bumpTopics_count ts m t hnd ht⟩
  intro s
  rw [normalizeTopic, normalizeTopic, ← trimStr_lowerStr, lowerStr_idem,
    trimStr_idem]

/-- Witness for C6: the hypotheses of the counter-increment component hold
at a concrete one-topic grade, and the counter goes from `0` to `1`. -/
theorem claim_C6_witness :
    ((["Fractions".data] : List Str).map normalizeTopic).Nodup ∧
    "Fractions".data ∈ (["Fractions".data] : List Str) ∧
    bumpTopics (fun _ => 0) ["Fractions".data]
        (normalizeTopic "Fractions".data) =
      (fun _ : Str => 0) (normalizeTopic "Fractions".data) + 1 :=
  ⟨List.nodup_singleton _, List.mem_singleton_self _,
    claim_C6_topic_normalization.2.2 (fun _ => 0) ["Fractions".data]
      "Fractions".data (List.nodup_singleton _) (List.mem_singleton_self _)⟩

/-! ## Claim C3 -/

/-- C3 counterexample: an `updateClassAnalytics` insert with
`totalPoints = 0` and a positive score stores `+Infinity` as the class
average — the insert path has no zero-total guard, so the percentage is not
taken as `0` and the stored `averageGrade` is not finite. -/
theorem claim_C3_counterexample :
    (insertGradeStep none ⟨5, 0, [], none, none⟩).averageGrade =
        JsNum.posInf ∧
    (insertGradeStep none
        ⟨5, 0, [], none, none⟩).averageGrade.isFinite = false := by
  constructor <;>
    simp [insertGradeStep, jsPercentage, JsNum.div, JsNum.mul, JsNum.isFinite]

/-- C3 (amended): the display-side helper `calculatePercentage` guards
`totalPoints = 0` by returning `0` and otherwise rounds
`score/totalPoints*100`; the insert path `updateClassAnalytics` itself
computes the percentage unguarded, so an insert with `totalPoints = 0`
stores a non-finite `averageGrade` (`+Infinity` for a positive score, `NaN`
for a zero score). -/
theorem claim_C3_percentage_guard :
    (∀ score : ℚ, calculatePercentage score 0 = 0) ∧
    (∀ score total : ℚ, total ≠ 0 →
      calculatePercentage score total =
        ((⌊score / total * 100 + 1 / 2⌋ : ℤ) : ℚ)) ∧
    (∀ g : GradeInsert, g.totalPoints = 0 → 0 < g.overallScore →
      (insertGradeStep none g).averageGrade = JsNum.posInf) ∧
    (∀ g : GradeInsert, g.totalPoints = 0 → g.overallScore = 0 →
      (insertGradeStep none g).averageGrade = JsNum.nan) := by
  refine ⟨fun score => by rw [calculatePercentage, if_pos rfl],
    fun score total h => by rw [calculatePercentage, if_neg h], ?_, ?_⟩
  · intro g h0 hpos
    simp [insertGradeStep, jsPercentage, JsNum.div, JsNum.mul, h0, hpos,
      ne_of_gt hpos]
  · intro g h0 hz
    simp [insertGradeStep, jsPercentage, JsNum.div, JsNum.mul, h0, hz]

/-! ## Claim C1 -/

theorem insertGradeStep_some_total (s : ClassAnalytics) (g : GradeInsert) :
    (insertGradeStep (some s) g).totalAssignments = s.totalAssignments + 1 :=
  rfl

theorem insertGradeStep_some_avg (s : ClassAnalytics) (g : GradeInsert) :
    (insertGradeStep (some s) g).averageGrade =
      ((s.averageGrade.orZero.mul (JsNum.fin s.totalAssignments)).add
        (jsPercentage g)).div
        (JsNum.fin (((s.totalAssignments + 1 : ℕ) : ℚ))) := rfl

theorem insertGrades_loop (gs : List GradeInsert) :
    ∀ (s : ClassAnalytics) (n : ℕ) (S : ℚ), 0 < n →
      s.totalAssignments = n → s.averageGrade = JsNum.fin (S / n) →
      (∀ g ∈ gs, g.totalPoints ≠ 0) →
      ∃ s',
        gs.foldl (fun st g => some (insertGradeStep st g)) (some s) = some s' ∧
        s'.totalAssignments = n + gs.length ∧
        s'.averageGrade =
          JsNum.fin ((S + (gs.map pct).sum) / (n + gs.length)) := by
  induction gs with
  | nil =>
    intro s n S _ hts havg _
    exact ⟨s, rfl, by simpa using hts, by simpa using havg⟩
  | cons g gs ih =>
    intro s n S hn hts havg hfin
    have hn0 : ((n : ℚ)) ≠ 0 := Nat.cast_ne_zero.mpr hn.ne'
    have htot1 : (insertGradeStep (some s) g).totalAssignments = n + 1 := by
      rw [insertGradeStep_some_total, hts]
    have havg1 : (insertGradeStep (some s) g).averageGrade =
        JsNum.fin ((S + pct g) / (((n + 1 : ℕ) : ℚ))) := by
      rw [insertGradeStep_some_avg, havg, hts, JsNum.orZero_fin, JsNum.mul_fin,
        jsPercentage_eq_pct (hfin g (List.mem_cons_self g gs)), JsNum.add_fin,
        JsNum.div_fin _ (Nat.cast_ne_zero.mpr (Nat.succ_ne_zero n))]
      rw [div_mul_cancel₀ S hn0]
    obtain ⟨s', h1, h2, h3⟩ :=
      ih (insertGradeStep (some s) g) (n + 1) (S + pct g) (by omega) htot1
        havg1 (fun g' hg' => hfin g' (List.mem_cons_of_mem _ hg'))
    refine ⟨s', by simpa [List.foldl_cons] using h1, by rw [h2]; simp only [List.length_cons]; omega, ?_⟩
    rw [h3]
    congr 1
    rw [List.map_cons, List.sum_cons, List.length_cons]
    push_cast
    ring

/-- C1: a sequence of `updateClassAnalytics` inserts into a class with no
pre-existing aggregate yields an aggregate whose `averageGrade` is the exact
arithmetic mean of the inserted percentages `score/totalPoints*100` (the
floating-point computation idealized as exact rational arithmetic) and whose
`totalAssignments` counts the inserts; the first insert initializes the
aggregate with one assignment and the grade's own percentage. -/
theorem claim_C1_average_is_mean (gs : List GradeInsert) (hne : gs ≠ [])
    (hfin : ∀ g ∈ gs, g.totalPoints ≠ 0) :
    (∀ g : GradeInsert, (insertGradeStep none g).totalAssignments = 1 ∧
      (insertGradeStep none g).averageGrade = jsPercentage g) ∧
    ∃ s, insertGrades gs = some s ∧ s.totalAssignments = gs.length ∧
      s.averageGrade = JsNum.fin ((gs.map pct).sum / gs.length) := by
  refine ⟨fun g => ⟨rfl, rfl⟩, ?_⟩
  match gs, hne with
  | g :: gs', _ =>
    have hg0 : g.totalPoints ≠ 0 := hfin g (List.mem_cons_self g gs')
    obtain ⟨s, h1, h2, h3⟩ :=
      insertGrades_loop gs' (insertGradeStep none g) 1 (pct g) one_pos rfl
        (by
          show jsPercentage g = _
          rw [jsPercentage_eq_pct hg0]
          norm_num)
        (fun g' hg' => hfin g' (List.mem_cons_of_mem _ hg'))
    refine ⟨s, by rw [insertGrades, List.foldl_cons]; exact h1, ?_, ?_⟩
    · rw [h2]; simp only [List.length_cons]; omega
    · rw [h3]
      congr 1
      rw [List.map_cons, List.sum_cons, List.length_cons]
      push_cast
      ring_nf

/-- Witness for C1: two concrete inserts (90/100 then 70/100) satisfy the
hypotheses, and the theorem yields the aggregate's mean form. -/
theorem claim_C1_witness :
    (([⟨90, 100, [], none, none⟩, ⟨70, 100, [], none, none⟩] :
        List GradeInsert) ≠ []) ∧
    (∀ g ∈ ([⟨90, 100, [], none, none⟩, ⟨70, 100, [], none, none⟩] :
        List GradeInsert), g.totalPoints ≠ 0) ∧
    ((∀ g : GradeInsert, (insertGradeStep none g).totalAssignments = 1 ∧
        (insertGradeStep none g).averageGrade = jsPercentage g) ∧
      ∃ s,
        insertGrades
            ([⟨90, 100, [], none, none⟩, ⟨70, 100, [], none, none⟩] :
              List GradeInsert) = some s ∧
        s.totalAssignments =
          ([⟨90, 100, [], none, none⟩, ⟨70, 100, [], none, none⟩] :
            List GradeInsert).length ∧
        s.averageGrade =
          JsNum.fin
            ((([⟨90, 100, [], none, none⟩, ⟨70, 100, [], none, none⟩] :
                List GradeInsert).map pct).sum /
              ([⟨90, 100, [], none, none⟩, ⟨70, 100, [], none, none⟩] :
                List GradeInsert).length)) :=
  ⟨by decide, by decide,
    claim_C1_average_is_mean _ (by decide) (by decide)⟩

/-- Witness for C3 (amended): concrete instances of every component. -/
theorem claim_C3_witness :
    calculatePercentage 5 0 = 0 ∧
    ((2 : ℚ) ≠ 0 ∧ calculatePercentage 1 2 = ((⌊(1 : ℚ) / 2 * 100 + 1 / 2⌋ : ℤ) : ℚ)) ∧
    ((⟨5, 0, [], none, none⟩ : GradeInsert).totalPoints = 0 ∧
      (0 : ℚ) < (⟨5, 0, [], none, none⟩ : GradeInsert).overallScore ∧
      (insertGradeStep none ⟨5, 0, [], none, none⟩).averageGrade =
        JsNum.posInf) :=
  ⟨claim_C3_percentage_guard.1 5,
    ⟨by norm_num, claim_C3_percentage_guard.2.1 1 2 (by norm_num)⟩,
    ⟨rfl, by norm_num,
      claim_C3_percentage_guard.2.2.1 ⟨5, 0, [], none, none⟩ rfl
        (by norm_num)⟩⟩

/-! ## Recalculation lemmas -/

theorem foldl_add_fin (gs : List GradeRecord) :
    ∀ a : ℚ, (∀ g ∈ gs, g.totalPoints ≠ 0) →
      gs.foldl (fun acc g => acc.add (jsPercentageRec g)) (JsNum.fin a) =
        JsNum.fin (a + (gs.map pctRec).sum) := by
  induction gs with
  | nil => intro a _; simp
  | cons g gs ih =>
    intro a hfin
    rw [List.foldl_cons, jsPercentageRec_eq_pctRec (hfin g (List.mem_cons_self g gs)),
      JsNum.add_fin, ih _ (fun g' hg' => hfin g' (List.mem_cons_of_mem _ hg'))]
    rw [List.map_cons, List.sum_cons, add_assoc]

theorem recalcTotalPercentage_eq (gs : List GradeRecord)
    (h : ∀ g ∈ gs, g.totalPoints ≠ 0) :
    recalcTotalPercentage gs = JsNum.fin ((gs.map pctRec).sum) := by
  rw [recalcTotalPercentage, foldl_add_fin gs 0 h, zero_add]

theorem bumpTopics_countP (ts : List Str) :
    ∀ (m : Str → ℕ) (k : Str),
      bumpTopics m ts k =
        m k + ts.countP (fun t => normalizeTopic t == k) := by
  induction ts with
  | nil => intro m k; simp [bumpTopics_nil]
  | cons u ts ih =>
    intro m k
    rw [bumpTopics_cons, ih, List.countP_cons]
    by_cases h : k = normalizeTopic u
    · rw [bumpTopic, if_pos h]
      subst h
      simp only [beq_self_eq_true, if_pos]
      omega
    · rw [bumpTopic, if_neg h]
      have hb : (normalizeTopic u == k) = false :=
        beq_eq_false_iff_ne.mpr (fun hg => h hg.symm)
      simp [hb]

theorem recalcTopics_fold (gs : List GradeRecord) :
    ∀ (m : Str → ℕ) (k : Str),
      gs.foldl
          (fun m g =>
            if g.strugglingTopics.isEmpty then m
            else bumpTopics m g.strugglingTopics) m k =
        m k +
          (gs.map
            (fun g =>
              g.strugglingTopics.countP (fun t => normalizeTopic t == k))).sum := by
  induction gs with
  | nil => intro m k; simp
  | cons g gs ih =>
    intro m k
    rw [List.foldl_cons, ih, List.map_cons, List.sum_cons]
    by_cases h : g.strugglingTopics.isEmpty
    · rw [if_pos h, List.isEmpty_iff.mp h]
      simp
    · rw [if_neg h, bumpTopics_countP]
      omega

theorem recalcTopics_count (gs : List GradeRecord) (k : Str) :
    recalcTopics gs k =
      (gs.map
        (fun g =>
          g.strugglingTopics.countP (fun t => normalizeTopic t == k))).sum := by
  rw [recalcTopics, recalcTopics_fold]
  exact zero_add _

theorem perfAccStep_not_truthy {g : GradeRecord} (m : Str → Option PerfAcc)
    (h : (truthyStr g.studentId && truthyStr g.studentName) = false) :
    perfAccStep m g = m := by
  rw [perfAccStep]
  simp [h]

theorem perfAccStep_other {g : GradeRecord} (m : Str → Option PerfAcc)
    (sid : Str) (h : g.studentId.getD [] ≠ sid) :
    perfAccStep m g sid = m sid := by
  rw [perfAccStep]
  by_cases ht : (truthyStr g.studentId && truthyStr g.studentName) = true
  · simp only [ht, if_true]
    exact if_neg (fun hh => h hh.symm)
  · simp only [Bool.not_eq_true] at ht
    simp [ht]

theorem perfAccStep_match {g : GradeRecord} (m : Str → Option PerfAcc)
    (ht : (truthyStr g.studentId && truthyStr g.studentName) = true) :
    perfAccStep m g (g.studentId.getD []) =
      some
        ⟨((m (g.studentId.getD [])).getD
            ⟨g.studentName.getD [], JsNum.fin 0, 0⟩).name,
          ((m (g.studentId.getD [])).getD
            ⟨g.studentName.getD [], JsNum.fin 0, 0⟩).totalScore.add
            (jsPercentageRec g),
          ((m (g.studentId.getD [])).getD
            ⟨g.studentName.getD [], JsNum.fin 0, 0⟩).totalAssignments + 1⟩ := by
  rw [perfAccStep]
  simp [ht]

theorem perfAccs_fold_some (gs : List GradeRecord) :
    ∀ (m : Str → Option PerfAcc) (sid name : Str) (t0 : ℚ) (n0 : ℕ),
      (∀ g ∈ gs, g.totalPoints ≠ 0) →
      m sid = some ⟨name, JsNum.fin t0, n0⟩ →
      gs.foldl perfAccStep m sid =
        some
          ⟨name, JsNum.fin (t0 + ((studentGradesOf sid gs).map pctRec).sum),
            n0 + (studentGradesOf sid gs).length⟩ := by
  induction gs with
  | nil =>
    intro m sid name t0 n0 _ hm
    simpa [studentGradesOf] using hm
  | cons g gs ih =>
    intro m sid name t0 n0 hfin hm
    have hrest : ∀ g' ∈ gs, g'.totalPoints ≠ 0 :=
      fun g' hg' => hfin g' (List.mem_cons_of_mem _ hg')
    rw [List.foldl_cons]
    by_cases ht : (truthyStr g.studentId && truthyStr g.studentName) = true
    · by_cases hs : g.studentId.getD [] = sid
      · have hstep : perfAccStep m g sid =
            some ⟨name, JsNum.fin (t0 + pctRec g), n0 + 1⟩ := by
          rw [← hs] at hm ⊢
          rw [perfAccStep_match m ht, hm]
          simp [Option.getD_some,
            jsPercentageRec_eq_pctRec (hfin g (List.mem_cons_self g gs)),
            JsNum.add_fin]
        have hcons : studentGradesOf sid (g :: gs) =
            g :: studentGradesOf sid gs := by
          simp [studentGradesOf, List.filter_cons, ht, hs]
        rw [hcons, List.map_cons, List.sum_cons, List.length_cons,
          ih (perfAccStep m g) sid name (t0 + pctRec g) (n0 + 1) hrest hstep]
        have h1 : t0 + pctRec g + ((studentGradesOf sid gs).map pctRec).sum =
            t0 + (pctRec g + ((studentGradesOf sid gs).map pctRec).sum) :=
          add_assoc _ _ _
        have h2 : n0 + 1 + (studentGradesOf sid gs).length =
            n0 + ((studentGradesOf sid gs).length + 1) := by omega
        rw [h1, h2]
      · have hcons : studentGradesOf sid (g :: gs) =
            studentGradesOf sid gs := by
          simp only [studentGradesOf, List.filter_cons]
          have hb : (g.studentId.getD [] == sid) = false :=
            beq_eq_false_iff_ne.mpr hs
          simp [hb]
        rw [hcons]
        exact ih _ sid name t0 n0 hrest
          (by rw [perfAccStep_other m sid hs]; exact hm)
    · have hF : (truthyStr g.studentId && truthyStr g.studentName) = false :=
        Bool.not_eq_true _ ▸ eq_false_of_ne_true ht
      have hcons : studentGradesOf sid (g :: gs) =
          studentGradesOf sid gs := by
        simp [studentGradesOf, List.filter_cons, hF]
      rw [hcons, perfAccStep_not_truthy m hF]
      exact ih m sid name t0 n0 hrest hm

theorem perfAccs_fold_none (gs : List GradeRecord) :
    ∀ (m : Str → Option PerfAcc) (sid : Str) (g₀ : GradeRecord)
      (rest : List GradeRecord),
      (∀ g ∈ gs, g.totalPoints ≠ 0) → m sid = none →
      studentGradesOf sid gs = g₀ :: rest →
      gs.foldl perfAccStep m sid =
        some
          ⟨g₀.studentName.getD [],
            JsNum.fin (((g₀ :: rest).map pctRec).sum),
            (g₀ :: rest).length⟩ := by
  induction gs with
  | nil =>
    intro m sid g₀ rest _ _ hsg
    exact absurd hsg (by simp [studentGradesOf])
  | cons g gs ih =>
    intro m sid g₀ rest hfin hm hsg
    have hrest : ∀ g' ∈ gs, g'.totalPoints ≠ 0 :=
      fun g' hg' => hfin g' (List.mem_cons_of_mem _ hg')
    rw [List.foldl_cons]
    by_cases ht : (truthyStr g.studentId && truthyStr g.studentName) = true
    · by_cases hs : g.studentId.getD [] = sid
      · have hcons : studentGradesOf sid (g :: gs) =
            g :: studentGradesOf sid gs := by
          simp [studentGradesOf, List.filter_cons, ht, hs]
        rw [hcons] at hsg
        obtain ⟨rfl, hrest'⟩ : g = g₀ ∧ studentGradesOf sid gs = rest := by
          injection hsg with h1 h2; exact ⟨h1, h2⟩
        have hstep : perfAccStep m g sid =
            some ⟨g.studentName.getD [], JsNum.fin (0 + pctRec g), 0 + 1⟩ := by
          rw [← hs] at hm ⊢
          rw [perfAccStep_match m ht, hm]
          simp [Option.getD_none,
            jsPercentageRec_eq_pctRec (hfin g (List.mem_cons_self g gs)),
            JsNum.add_fin]
        rw [perfAccs_fold_some gs (perfAccStep m g) sid (g.studentName.getD [])
            (0 + pctRec g) (0 + 1) hrest hstep, hrest',
          List.map_cons, List.sum_cons, List.length_cons]
        have h1 : 0 + pctRec g + (rest.map pctRec).sum =
            pctRec g + (rest.map pctRec).sum := by ring
        have h2 : 0 + 1 + rest.length = rest.length + 1 := by omega
        rw [h1, h2]
      · have hcons : studentGradesOf sid (g :: gs) =
            studentGradesOf sid gs := by
          simp only [studentGradesOf, List.filter_cons]
          have hb : (g.studentId.getD [] == sid) = false :=
            beq_eq_false_iff_ne.mpr hs
          simp [hb]
        rw [hcons] at hsg
        exact ih _ sid g₀ rest hrest
          (by rw [perfAccStep_other m sid hs]; exact hm) hsg
    · have hF : (truthyStr g.studentId && truthyStr g.studentName) = false :=
        Bool.not_eq_true _ ▸ eq_false_of_ne_true ht
      have hcons : studentGradesOf sid (g :: gs) =
          studentGradesOf sid gs := by
        simp [studentGradesOf, List.filter_cons, hF]
      rw [hcons] at hsg
      rw [perfAccStep_not_truthy m hF]
      exact ih m sid g₀ rest hrest hm hsg

/-! ## Claim C2 -/

/-- Auxiliary computation for the C2 example: grades of 90%, 70% and 80%
give a class average of 80; after soft-deleting the 70% grade,
recalculation gives average 85 over 2 assignments. -/
theorem claim_C2_example_aux :
    (recalculateClassAnalytics "c".data "t".data
        [⟨"1".data, "c".data, "t".data, none, none, "a1".data, "A1".data,
            90, 100, 1, [], false⟩,
          ⟨"2".data, "c".data, "t".data, none, none, "a2".data, "A2".data,
            70, 100, 2, [], false⟩,
          ⟨"3".data, "c".data, "t".data, none, none, "a3".data, "A3".data,
            80, 100, 3, [], false⟩]).averageGrade = JsNum.fin 80 ∧
    (recalculateClassAnalytics "c".data "t".data
        (deleteGrade "2".data
          [⟨"1".data, "c".data, "t".data, none, none, "a1".data, "A1".data,
              90, 100, 1, [], false⟩,
            ⟨"2".data, "c".data, "t".data, none, none, "a2".data, "A2".data,
              70, 100, 2, [], false⟩,
            ⟨"3".data, "c".data, "t".data, none, none, "a3".data, "A3".data,
              80, 100, 3, [], false⟩])).averageGrade = JsNum.fin 85 ∧
    (recalculateClassAnalytics "c".data "t".data
        (deleteGrade "2".data
          [⟨"1".data, "c".data, "t".data, none, none, "a1".data, "A1".data,
              90, 100, 1, [], false⟩,
            ⟨"2".data, "c".data, "t".data, none, none, "a2".data, "A2".data,
              70, 100, 2, [], false⟩,
            ⟨"3".data, "c".data, "t".data, none, none, "a3".data, "A3".data,
              80, 100, 3, [], false⟩])).totalAssignments = 2 := by
  refine ⟨?_, ?_, ?_⟩
  · have h : getActiveGradesForClass "c".data "t".data
        [⟨"1".data, "c".data, "t".data, none, none, "a1".data, "A1".data,
            90, 100, 1, [], false⟩,
          ⟨"2".data, "c".data, "t".data, none, none, "a2".data, "A2".data,
            70, 100, 2, [], false⟩,
          ⟨"3".data, "c".data, "t".data, none, none, "a3".data, "A3".data,
            80, 100, 3, [], false⟩] =
        [⟨"1".data, "c".data, "t".data, none, none, "a1".data, "A1".data,
            90, 100, 1, [], false⟩,
          ⟨"2".data, "c".data, "t".data, none, none, "a2".data, "A2".data,
            70, 100, 2, [], false⟩,
          ⟨"3".data, "c".data, "t".data, none, none, "a3".data, "A3".data,
            80, 100, 3, [], false⟩] := by decide
    rw [recalculateClassAnalytics, h]
    norm_num [recalcTotalPercentage, jsPercentageRec, JsNum.div, JsNum.mul,
      JsNum.add]
  · have h : getActiveGradesForClass "c".data "t".data
        (deleteGrade "2".data
          [⟨"1".data, "c".data, "t".data, none, none, "a1".data, "A1".data,
              90, 100, 1, [], false⟩,
            ⟨"2".data, "c".data, "t".data, none, none, "a2".data, "A2".data,
              70, 100, 2, [], false⟩,
            ⟨"3".data, "c".data, "t".data, none, none, "a3".data, "A3".data,
              80, 100, 3, [], false⟩]) =
        [⟨"1".data, "c".data, "t".data, none, none, "a1".data, "A1".data,
            90, 100, 1, [], false⟩,
          ⟨"3".data, "c".data, "t".data, none, none, "a3".data, "A3".data,
            80, 100, 3, [], false⟩] := by decide
    rw [recalculateClassAnalytics, h]
    norm_num [recalcTotalPercentage, jsPercentageRec, JsNum.div, JsNum.mul,
      JsNum.add]
  · have h : getActiveGradesForClass "c".data "t".data
        (deleteGrade "2".data
          [⟨"1".data, "c".data, "t".data, none, none, "a1".data, "A1".data,
              90, 100, 1, [], false⟩,
            ⟨"2".data, "c".data, "t".data, none, none, "a2".data, "A2".data,
              70, 100, 2, [], false⟩,
            ⟨"3".data, "c".data, "t".data, none, none, "a3".data, "A3".data,
              80, 100, 3, [], false⟩]) =
        [⟨"1".data, "c".data, "t".data, none, none, "a1".data, "A1".data,
            90, 100, 1, [], false⟩,
          ⟨"3".data, "c".data, "t".data, none, none, "a3".data, "A3".data,
            80, 100, 3, [], false⟩] := by decide
    rw [recalculateClassAnalytics, h]
    norm_num

/-- C2: `recalculateClassAnalytics` rebuilds the class aggregate from the
currently active (non-deleted) grade records only: `averageGrade` is the
mean of the active percentages, `totalAssignments` their count,
`commonStrugglingTopics` counts normalized topic occurrences over the active
grades, and each present student's `studentPerformances` entry carries that
student's mean and count (name taken from the student's first active grade).
In particular, for a class with grades 90%, 70% and 80% the aggregate has
average 80, and after soft-deleting the 70% grade and recalculating it has
average 85 over 2 assignments. -/
theorem claim_C2_recalculate_rebuilds :
    (∀ (classId teacherId : Str) (allGrades : List GradeRecord),
      getActiveGradesForClass classId teacherId allGrades ≠ [] →
      (∀ g ∈ getActiveGradesForClass classId teacherId allGrades,
        g.totalPoints ≠ 0) →
      (recalculateClassAnalytics classId teacherId allGrades).averageGrade =
          JsNum.fin
            (((getActiveGradesForClass classId teacherId allGrades).map
                pctRec).sum /
              ((getActiveGradesForClass classId teacherId
                allGrades).length : ℚ)) ∧
        (recalculateClassAnalytics classId teacherId
            allGrades).totalAssignments =
          (getActiveGradesForClass classId teacherId allGrades).length) ∧
    (∀ (classId teacherId : Str) (allGrades : List GradeRecord) (k : Str),
      getActiveGradesForClass classId teacherId allGrades ≠ [] →
      (recalculateClassAnalytics classId teacherId
          allGrades).commonStrugglingTopics k =
        ((getActiveGradesForClass classId teacherId allGrades).map
          (fun g =>
            g.strugglingTopics.countP
              (fun t => normalizeTopic t == k))).sum) ∧
    (∀ (classId teacherId : Str) (allGrades : List GradeRecord) (sid : Str)
      (g₀ : GradeRecord) (rest : List GradeRecord),
      (∀ g ∈ getActiveGradesForClass classId teacherId allGrades,
        g.totalPoints ≠ 0) →
      studentGradesOf sid (getActiveGradesForClass classId teacherId allGrades) =
        g₀ :: rest →
      (recalculateClassAnalytics classId teacherId
          allGrades).studentPerformances sid =
        some
          ⟨g₀.studentName.getD [],
            JsNum.fin
              (((g₀ :: rest).map pctRec).sum / ((g₀ :: rest).length : ℚ)),
            (g₀ :: rest).length⟩) ∧
    (recalculateClassAnalytics "c".data "t".data
        [⟨"1".data, "c".data, "t".data, none, none, "a1".data, "A1".data,
            90, 100, 1, [], false⟩,
          ⟨"2".data, "c".data, "t".data, none, none, "a2".data, "A2".data,
            70, 100, 2, [], false⟩,
          ⟨"3".data, "c".data, "t".data, none, none, "a3".data, "A3".data,
            80, 100, 3, [], false⟩]).averageGrade = JsNum.fin 80 ∧
    (recalculateClassAnalytics "c".data "t".data
        (deleteGrade "2".data
          [⟨"1".data, "c".data, "t".data, none, none, "a1".data, "A1".data,
              90, 100, 1, [], false⟩,
            ⟨"2".data, "c".data, "t".data, none, none, "a2".data, "A2".data,
              70, 100, 2, [], false⟩,
            ⟨"3".data, "c".data, "t".data, none, none, "a3".data, "A3".data,
              80, 100, 3, [], false⟩])).averageGrade = JsNum.fin 85 ∧
    (recalculateClassAnalytics "c".data "t".data
        (deleteGrade "2".data
          [⟨"1".data, "c".data, "t".data, none, none, "a1".data, "A1".data,
              90, 100, 1, [], false⟩,
            ⟨"2".data, "c".data, "t".data, none, none, "a2".data, "A2".data,
              70, 100, 2, [], false⟩,
            ⟨"3".data, "c".data, "t".data, none, none, "a3".data, "A3".data,
              80, 100, 3, [], false⟩])).totalAssignments = 2 := by
  refine ⟨?_, ?_, ?_, claim_C2_example_aux.1, claim_C2_example_aux.2.1,
    claim_C2_example_aux.2.2⟩
  · intro classId teacherId allGrades hne hfin
    have hlen : (getActiveGradesForClass classId teacherId allGrades).length ≠ 0 := by
      simpa [List.length_eq_zero] using hne
    have hcast :
        ((getActiveGradesForClass classId teacherId allGrades).length : ℚ) ≠ 0 :=
      Nat.cast_ne_zero.mpr hlen
    rw [recalculateClassAnalytics]
    rw [if_neg hlen]
    exact ⟨by rw [recalcTotalPercentage_eq _ hfin, JsNum.div_fin _ hcast], rfl⟩
  · intro classId teacherId allGrades k hne
    have hlen : (getActiveGradesForClass classId teacherId allGrades).length ≠ 0 := by
      simpa [List.length_eq_zero] using hne
    rw [recalculateClassAnalytics]
    rw [if_neg hlen]
    exact recalcTopics_count _ k
  · intro classId teacherId allGrades sid g₀ rest hfin hsg
    have hne : getActiveGradesForClass classId teacherId allGrades ≠ [] := by
      intro h
      rw [h] at hsg
      simp [studentGradesOf] at hsg
    have hlen : (getActiveGradesForClass classId teacherId allGrades).length ≠ 0 := by
      simpa [List.length_eq_zero] using hne
    rw [recalculateClassAnalytics]
    rw [if_neg hlen]
    show recalcPerfs _ sid = _
    rw [recalcPerfs, recalcPerfAccs,
      perfAccs_fold_none _ _ sid g₀ rest hfin rfl hsg, Option.map_some']
    have hc : (((g₀ :: rest).length : ℕ) : ℚ) ≠ 0 := by
      rw [List.length_cons]
      exact_mod_cast Nat.succ_ne_zero rest.length
    rw [JsNum.div_fin _ hc]

/-- Witness for C2: the mean/count component of the claim applied to the
concrete three-grade class. -/
theorem claim_C2_witness :
    (getActiveGradesForClass "c".data "t".data
        [⟨"1".data, "c".data, "t".data, none, none, "a1".data, "A1".data,
            90, 100, 1, [], false⟩] ≠ []) ∧
    (∀ g ∈ getActiveGradesForClass "c".data "t".data
        [⟨"1".data, "c".data, "t".data, none, none, "a1".data, "A1".data,
            90, 100, 1, [], false⟩], g.totalPoints ≠ 0) ∧
    ((recalculateClassAnalytics "c".data "t".data
        [⟨"1".data, "c".data, "t".data, none, none, "a1".data, "A1".data,
            90, 100, 1, [], false⟩]).averageGrade =
        JsNum.fin
          (((getActiveGradesForClass "c".data "t".data
              [⟨"1".data, "c".data, "t".data, none, none, "a1".data,
                  "A1".data, 90, 100, 1, [], false⟩]).map pctRec).sum /
            ((getActiveGradesForClass "c".data "t".data
              [⟨"1".data, "c".data, "t".data, none, none, "a1".data,
                  "A1".data, 90, 100, 1, [], false⟩]).length : ℚ)) ∧
      (recalculateClassAnalytics "c".data "t".data
          [⟨"1".data, "c".data, "t".data, none, none, "a1".data, "A1".data,
              90, 100, 1, [], false⟩]).totalAssignments =
        (getActiveGradesForClass "c".data "t".data
          [⟨"1".data, "c".data, "t".data, none, none, "a1".data, "A1".data,
              90, 100, 1, [], false⟩]).length) :=
  ⟨by decide, by decide,
    claim_C2_recalculate_rebuilds.1 "c".data "t".data _ (by decide) (by decide)⟩

/-! ## Claim C7 -/

/-- C7: when recalculation finds zero active grades, the class aggregate is
overwritten with exactly `{averageGrade: 0, totalAssignments: 0,
commonStrugglingTopics: {}, studentPerformances: {}}` (a reset typed record,
not a deletion), and the per-student aggregate is likewise reset to
`{averageScore: 0, totalAssignments: 0, strugglingTopics: {},
assignmentHistory: []}`. -/
theorem claim_C7_reset_on_empty :
    (∀ (classId teacherId : Str) (allGrades : List GradeRecord),
      getActiveGradesForClass classId teacherId allGrades = [] →
      recalculateClassAnalytics classId teacherId allGrades =
        resetClassAnalytics) ∧
    (∀ (studentId classId teacherId : Str) (allGrades : List GradeRecord),
      (getActiveGradesForClass classId teacherId allGrades).filter
          (fun g => g.studentId == some studentId) = [] →
      recalculateStudentAnalytics studentId classId teacherId allGrades =
        resetStudentAnalytics) ∧
    (resetClassAnalytics.averageGrade = JsNum.fin 0 ∧
      resetClassAnalytics.totalAssignments = 0 ∧
      (∀ k, resetClassAnalytics.commonStrugglingTopics k = 0) ∧
      (∀ k, resetClassAnalytics.studentPerformances k = none)) ∧
    (resetStudentAnalytics.averageScore = JsNum.fin 0 ∧
      resetStudentAnalytics.totalAssignments = 0 ∧
      (∀ k, resetStudentAnalytics.strugglingTopics k = none) ∧
      resetStudentAnalytics.assignmentHistory = []) := by
  refine ⟨?_, ?_, ⟨rfl, rfl, fun _ => rfl, fun _ => rfl⟩,
    ⟨rfl, rfl, fun _ => rfl, rfl⟩⟩
  · intro classId teacherId allGrades h
    rw [recalculateClassAnalytics]
    simp [h]
  · intro studentId classId teacherId allGrades h
    rw [recalculateStudentAnalytics]
    simp [h]

/-- Witness for C7: a collection whose only grade is soft-deleted has no
active grades, and both recalculations write the reset records. -/
theorem claim_C7_witness :
    getActiveGradesForClass "c".data "t".data
        [⟨"1".data, "c".data, "t".data, none, none, "a".data, "A".data,
          90, 100, 1, [], true⟩] = [] ∧
    recalculateClassAnalytics "c".data "t".data
        [⟨"1".data, "c".data, "t".data, none, none, "a".data, "A".data,
          90, 100, 1, [], true⟩] = resetClassAnalytics ∧
    recalculateStudentAnalytics "s".data "c".data "t".data
        [⟨"1".data, "c".data, "t".data, none, none, "a".data, "A".data,
          90, 100, 1, [], true⟩] = resetStudentAnalytics :=
  ⟨by decide,
    claim_C7_reset_on_empty.1 "c".data "t".data _ (by decide),
    claim_C7_reset_on_empty.2.1 "s".data "c".data "t".data _ (by decide)⟩

/-! ## Claim C9 -/

theorem flushBatch_delivered_join (s : BatchState) :
    (flushBatch s).delivered.join = s.delivered.join ++ s.batchedText := by
  rw [flushBatch]
  by_cases h : s.batchedText.isEmpty
  · rw [if_pos h, List.isEmpty_iff.mp h, List.append_nil]
  · rw [if_neg h]
    simp

theorem flushBatch_batchedText (s : BatchState) :
    (flushBatch s).batchedText = [] := by
  rw [flushBatch]
  by_cases h : s.batchedText.isEmpty
  · rw [if_pos h]
    exact List.isEmpty_iff.mp h
  · rw [if_neg h]

theorem foldl_stepEvent_invariant (events : List StreamEvent) :
    ∀ s : BatchState,
      (events.foldl stepEvent s).delivered.join ++
          (events.foldl stepEvent s).batchedText =
        s.delivered.join ++ s.batchedText ++ (chunksOf events).join := by
  induction events with
  | nil => intro s; simp [chunksOf]
  | cons e es ih =>
    intro s
    rw [List.foldl_cons]
    cases e with
    | chunk t =>
      rw [ih]
      simp [stepEvent, updateChunk, chunksOf, List.filterMap_cons,
        List.append_assoc]
    | timerFire =>
      rw [ih]
      simp [stepEvent, flushBatch_delivered_join, flushBatch_batchedText,
        chunksOf, List.filterMap_cons]

theorem fullResponse_eq_join (chunks : List Str) :
    fullResponse chunks = chunks.join := by
  rw [fullResponse]
  suffices h : ∀ a : Str, chunks.foldl (fun acc t => acc ++ t) a = a ++ chunks.join by
    simpa using h []
  induction chunks with
  | nil => intro a; simp
  | cons c cs ih => intro a; simp [ih, List.append_assoc]

/-- C9: for any interleaving of streamed text chunks and batching-timer
firings, the concatenation of the batched strings delivered to the caller's
callback (after the final `flush`) equals the concatenation of the input
chunks, i.e. the full response text accumulated by `fullText +=`. -/
theorem claim_C9_stream_reassembly (events : List StreamEvent) :
    (flushBatch (runEvents events)).delivered.join =
      fullResponse (chunksOf events) ∧
    fullResponse (chunksOf events) = (chunksOf events).join := by
  refine ⟨?_, fullResponse_eq_join _⟩
  rw [fullResponse_eq_join, flushBatch_delivered_join, runEvents,
    foldl_stepEvent_invariant events emptyBatch]
  simp [emptyBatch]

/-! ## Claims C5 and C10 -/

theorem dotProduct_self_nonneg (a : List ℝ) : 0 ≤ dotProduct a a :=
  Finset.sum_nonneg (fun _ _ => mul_self_nonneg _)

theorem dotProduct_comm {a b : List ℝ} (h : a.length = b.length) :
    dotProduct a b = dotProduct b a := by
  rw [dotProduct, dotProduct, h]
  exact Finset.sum_congr rfl (fun i _ => mul_comm _ _)

theorem dotProduct_sq_le {a b : List ℝ} (h : a.length = b.length) :
    (dotProduct a b) ^ 2 ≤ dotProduct a a * dotProduct b b := by
  have hbb : dotProduct b b =
      ∑ i ∈ Finset.range a.length, b.getD i 0 * b.getD i 0 := by
    rw [dotProduct, h]
  have hcs :=
    Finset.sum_mul_sq_le_sq_mul_sq (Finset.range a.length)
      (fun i => a.getD i 0) (fun i => b.getD i 0)
  rw [dotProduct, dotProduct, hbb]
  simpa [sq] using hcs

theorem abs_dotProduct_le {a b : List ℝ} (h : a.length = b.length) :
    |dotProduct a b| ≤
      Real.sqrt (dotProduct a a) * Real.sqrt (dotProduct b b) := by
  rw [← Real.sqrt_sq_eq_abs, ← Real.sqrt_mul (dotProduct_self_nonneg a)]
  exact Real.sqrt_le_sqrt (dotProduct_sq_le h)

theorem dotProduct_self_pos {a : List ℝ} (ha : ∃ x ∈ a, x ≠ 0) :
    0 < dotProduct a a := by
  obtain ⟨x, hx, hx0⟩ := ha
  obtain ⟨i, hi, hgi⟩ := List.mem_iff_getElem.mp hx
  refine Finset.sum_pos' (fun j _ => mul_self_nonneg _) ⟨i, Finset.mem_range.mpr hi, ?_⟩
  rw [List.getD_eq_getElem a 0 hi, hgi]
  exact mul_self_pos.mpr hx0

/-- C5: the cosine-similarity core is symmetric on equal-length vectors,
equals `1` on any nonzero vector paired with itself, always lies in
`[-1, 1]` on equal-length vectors, and returns `0` (rather than a division
by zero) whenever either vector has zero norm. -/
theorem claim_C5_cosine_properties :
    (∀ a b : List ℝ, a.length = b.length →
      cosineSimilarityCore a b = cosineSimilarityCore b a) ∧
    (∀ a : List ℝ, (∃ x ∈ a, x ≠ 0) → cosineSimilarityCore a a = 1) ∧
    (∀ a b : List ℝ, a.length = b.length →
      -1 ≤ cosineSimilarityCore a b ∧ cosineSimilarityCore a b ≤ 1) ∧
    (∀ a b : List ℝ, dotProduct a a = 0 ∨ dotProduct b b = 0 →
      cosineSimilarityCore a b = 0) := by
  refine ⟨?_, ?_, ?_, ?_⟩
  · intro a b h
    simp only [cosineSimilarityCore]
    rw [dotProduct_comm h,
      mul_comm (Real.sqrt (dotProduct a a)) (Real.sqrt (dotProduct b b))]
  · intro a ha
    have hpos := dotProduct_self_pos ha
    simp only [cosineSimilarityCore]
    rw [Real.mul_self_sqrt (dotProduct_self_nonneg a), if_neg hpos.ne',
      div_self hpos.ne']
  · intro a b h
    simp only [cosineSimilarityCore]
    by_cases hden :
        Real.sqrt (dotProduct a a) * Real.sqrt (dotProduct b b) = 0
    · rw [if_pos hden]
      norm_num
    · rw [if_neg hden]
      have hd0 : 0 < Real.sqrt (dotProduct a a) * Real.sqrt (dotProduct b b) :=
        lt_of_le_of_ne (mul_nonneg (Real.sqrt_nonneg _) (Real.sqrt_nonneg _))
          (Ne.symm hden)
      have habs : |dotProduct a b /
          (Real.sqrt (dotProduct a a) * Real.sqrt (dotProduct b b))| ≤ 1 := by
        rw [abs_div, abs_of_pos hd0, div_le_one hd0]
        exact abs_dotProduct_le h
      exact abs_le.mp habs
  · intro a b hz
    simp only [cosineSimilarityCore]
    rcases hz with hz | hz <;> rw [hz] <;> simp

/-- Witness for C5: every component applied to concrete vectors. -/
theorem claim_C5_witness :
    (([(3 : ℝ), 4]).length = ([(1 : ℝ), 2]).length ∧
      cosineSimilarityCore [(3 : ℝ), 4] [(1 : ℝ), 2] =
        cosineSimilarityCore [(1 : ℝ), 2] [(3 : ℝ), 4]) ∧
    ((∃ x ∈ [(3 : ℝ), 4], x ≠ 0) ∧
      cosineSimilarityCore [(3 : ℝ), 4] [(3 : ℝ), 4] = 1) ∧
    (-1 ≤ cosineSimilarityCore [(3 : ℝ), 4] [(1 : ℝ), 2] ∧
      cosineSimilarityCore [(3 : ℝ), 4] [(1 : ℝ), 2] ≤ 1) ∧
    ((dotProduct [(0 : ℝ)] [(0 : ℝ)] = 0 ∨
        dotProduct [(1 : ℝ)] [(1 : ℝ)] = 0) ∧
      cosineSimilarityCore [(0 : ℝ)] [(1 : ℝ)] = 0) := by
  have hz : dotProduct [(0 : ℝ)] [(0 : ℝ)] = 0 := by
    norm_num [dotProduct, Finset.sum_range_succ]
  have hx : ∃ x ∈ [(3 : ℝ), 4], x ≠ 0 := ⟨3, by norm_num, by norm_num⟩
  exact ⟨⟨rfl, claim_C5_cosine_properties.1 _ _ rfl⟩,
    ⟨hx, claim_C5_cosine_properties.2.1 _ hx⟩,
    claim_C5_cosine_properties.2.2.1 _ _ rfl,
    ⟨Or.inl hz, claim_C5_cosine_properties.2.2.2 _ _ (Or.inl hz)⟩⟩

/-- C10 (implicit): `cosineSimilarity` throws exactly when an argument is
null/undefined or the lengths differ, and returns the numeric core score on
any two equal-length vectors. -/
theorem claim_C10_cosine_guard :
    (∀ va vb : Option (List ℝ),
      cosineSimilarity va vb = Except.error vectorErrMsg ↔
        va = none ∨ vb = none ∨
          ∃ a b, va = some a ∧ vb = some b ∧ a.length ≠ b.length) ∧
    (∀ a b : List ℝ, a.length = b.length →
      cosineSimilarity (some a) (some b) =
        Except.ok (cosineSimilarityCore a b)) := by
  constructor
  · intro va vb
    cases va with
    | none => simp [cosineSimilarity]
    | some a =>
      cases vb with
      | none => simp [cosineSimilarity]
      | some b =>
        by_cases h : a.length = b.length <;> simp [cosineSimilarity, h]
  · intro a b h
    simp [cosineSimilarity, h]

/-- Witness for C10: the happy-path component applied to two equal-length
vectors. -/
theorem claim_C10_witness :
    ([(1 : ℝ)].length = [(2 : ℝ)].length) ∧
    cosineSimilarity (some [(1 : ℝ)]) (some [(2 : ℝ)]) =
      Except.ok (cosineSimilarityCore [(1 : ℝ)] [(2 : ℝ)]) :=
  ⟨rfl, claim_C10_cosine_guard.2 _ _ rfl⟩

/-! ## Claim C4 -/

/-- C4: retrieval sorts the scored documents descending by score, keeps at
most the top 10, and the context assembly keeps exactly the retrieved
documents whose score strictly exceeds `0.3`; on the example scores
`[0.9, 0.5, 0.25, 0.1]` exactly the first two documents survive. -/
theorem claim_C4_rank_and_threshold :
    (∀ (q : List ℝ) (docs : List RagDocument),
      List.Sorted scoreDescRel (searchSimilar q docs 10) ∧
      (searchSimilar q docs 10).length ≤ 10 ∧
      (∀ d, d ∈ relevantDocs (searchSimilar q docs 10) ↔
        d ∈ searchSimilar q docs 10 ∧ (3 : ℝ) / 10 < d.score)) ∧
    relevantDocs (rankTop 10
        [(⟨"doc1".data, none, (9 : ℚ) / 10⟩ : ScoredDoc ℚ),
          ⟨"doc2".data, none, 5 / 10⟩, ⟨"doc3".data, none, 25 / 100⟩,
          ⟨"doc4".data, none, 1 / 10⟩]) =
      [(⟨"doc1".data, none, (9 : ℚ) / 10⟩ : ScoredDoc ℚ),
        ⟨"doc2".data, none, 5 / 10⟩] := by
  constructor
  · intro q docs
    refine ⟨?_, ?_, ?_⟩
    · exact List.Pairwise.sublist (List.take_sublist _ _)
        (List.sorted_insertionSort scoreDescRel _)
    · rw [searchSimilar, rankTop]
      exact List.length_take_le _ _
    · intro d
      simp [relevantDocs, List.mem_filter]
  · norm_num [relevantDocs, rankTop, sortByScoreDesc, List.insertionSort,
      List.orderedInsert, scoreDescRel, List.filter]

/-! ## Claim C8 -/

theorem contextFromRetrieved_ne_nil {α : Type} [LinearOrderedField α]
    (retrieved : List (ScoredDoc α)) : contextFromRetrieved retrieved ≠ [] := by
  rw [contextFromRetrieved]
  by_cases h : retrieved.length > 0
  · rw [if_pos h]
    by_cases ht :
        trimStr
            (List.intercalate "\n\n".data
              ((relevantDocs retrieved).mapIdx docLine)) = []
    · rw [if_pos ht]
      decide
    · rw [if_neg ht]
      intro hc
      exact ht (by rw [hc]; rfl)
  · rw [if_neg h]
    decide

theorem contextFromRetrieved_all_below {α : Type} [LinearOrderedField α]
    (retrieved : List (ScoredDoc α)) (hne : retrieved ≠ [])
    (hle : ∀ d ∈ retrieved, d.score ≤ 3 / 10) :
    contextFromRetrieved retrieved = noRelevantFallback := by
  have hrel : relevantDocs retrieved = [] :=
    List.filter_eq_nil_iff.mpr
      (fun d hd => by
        simp only [decide_eq_true_eq]
        exact not_lt.mpr (hle d hd))
  rw [contextFromRetrieved, if_pos (List.length_pos.mpr hne), hrel]
  rfl

/-- C8: the assembled retrieval context is never the empty string: with zero
tenant documents the explicit no-data fallback is produced, with retrieved
documents that all score at or below the `0.3` threshold the distinct
no-relevant-data fallback is produced, and the two fallback texts differ. -/
theorem claim_C8_context_fallbacks :
    (∀ (q : List ℝ) (docs : List RagDocument),
      docs = [] → assembleContext q docs = noDataFallback) ∧
    (∀ (α : Type) [LinearOrderedField α] (retrieved : List (ScoredDoc α)),
      retrieved ≠ [] → (∀ d ∈ retrieved, d.score ≤ 3 / 10) →
      contextFromRetrieved retrieved = noRelevantFallback) ∧
    noDataFallback ≠ noRelevantFallback ∧
    (∀ (α : Type) [LinearOrderedField α] (retrieved : List (ScoredDoc α)),
      contextFromRetrieved retrieved ≠ []) ∧
    (∀ (q : List ℝ) (docs : List RagDocument),
      assembleContext q docs ≠ []) := by
  refine ⟨?_, ?_, by decide, ?_, ?_⟩
  · intro q docs h
    subst h
    rw [assembleContext]
    simp
  · intro α _ retrieved hne hle
    exact contextFromRetrieved_all_below retrieved hne hle
  · intro α _ retrieved
    exact contextFromRetrieved_ne_nil retrieved
  · intro q docs
    rw [assembleContext]
    by_cases h : docs.length > 0
    · rw [if_pos h]
      exact contextFromRetrieved_ne_nil _
    · rw [if_neg h]
      decide

/-- Witness for C8: a single retrieved document scoring `0.1` (at or below
the threshold) yields the no-relevant-data fallback. -/
theorem claim_C8_witness :
    (([(⟨"x".data, none, (1 : ℚ) / 10⟩ : ScoredDoc ℚ)] :
        List (ScoredDoc ℚ)) ≠ []) ∧
    (∀ d ∈ ([(⟨"x".data, none, (1 : ℚ) / 10⟩ : ScoredDoc ℚ)] :
        List (ScoredDoc ℚ)), d.score ≤ 3 / 10) ∧
    contextFromRetrieved
        ([(⟨"x".data, none, (1 : ℚ) / 10⟩ : ScoredDoc ℚ)] :
          List (ScoredDoc ℚ)) = noRelevantFallback := by
  have hle : ∀ d ∈ ([(⟨"x".data, none, (1 : ℚ) / 10⟩ : ScoredDoc ℚ)] :
      List (ScoredDoc ℚ)), d.score ≤ 3 / 10 := by
    intro d hd
    rcases List.mem_singleton.mp hd with rfl
    norm_num
  exact ⟨by simp, hle,
    claim_C8_context_fallbacks.2.1 ℚ _ (by simp) hle⟩

end CheckMate
